import Mathlib

/-
Shallow embedding of the real-time coordination core of the
cogni_anchor_backend repository: the websocket fan-out manager
(app/services/infra/websocket_manager.py), the reminder scheduler
(app/services/infra/scheduler.py), the agent tools
(app/services/chatbot/agent_tools.py) and the agent orchestrator
(app/services/chatbot/langgraph_agent.py with its API entry points in
app/api/v1/chatbot/agent.py).

Python strings are modelled as `List Char`; Python `datetime` values are
modelled by the `DateTime` structure (year/month/day/hour/minute, the
fields the code formats and compares).  `datetime.strptime` with the six
format strings the code uses is embedded as a deterministic parser that
follows the regular expressions CPython's `_strptime` compiles for the
directives %d %b %B %Y %I %H %M %p (for these formats the regex engine
never needs backtracking across a numeric field, because every numeric
field is followed by a mandatory non-digit token, so a greedy
first-alternative parser is behaviour-equivalent).  Digits are ASCII
digits.  Fallible Python code is modelled with `Option`.
-/

namespace CogniAnchor

/-! ## Characters, digits and decimal numerals -/

/-- Decimal digit test, ASCII `\d` of the strptime regexes. -/
def isDigitCh (c : Char) : Bool := decide ('0' ≤ c) && decide (c ≤ '9')

/-- Numeric value of a digit character. -/
def dv (c : Char) : Nat := c.toNat - 48

/-- Digit character of a value below ten. -/
def digitChar (n : Nat) : Char := Char.ofNat (48 + n)

/-- Fuelled decimal-numeral writer (structural recursion so the kernel can
evaluate it). -/
def ntcAux : Nat → Nat → List Char
  | 0, _ => []
  | fuel + 1, n =>
    if n < 10 then [digitChar n] else ntcAux fuel (n / 10) ++ [digitChar (n % 10)]

/-- Decimal numeral of a natural number, as Python `str`/`%-formatting`
prints it (no padding). -/
def natToChars (n : Nat) : List Char := ntcAux (n + 1) n

/-- Two-digit zero-padded numeral, the `%d`, `%I`, `%M` strftime output. -/
def pad2 (n : Nat) : List Char :=
  if n < 10 then '0' :: natToChars n else natToChars n

/-! ## Python `datetime` values

Only the fields the backend formats, parses and compares are modelled:
second/microsecond are always zero in every value the code builds with
`strptime` of the minute-granular formats. -/

structure DateTime where
  year : Nat
  month : Nat
  day : Nat
  hour : Nat
  minute : Nat
deriving DecidableEq, Repr

/-- Leap-year rule of `calendar.isleap`, used by `datetime` day validation. -/
def leapYear (y : Nat) : Bool :=
  decide (y % 4 = 0) && (decide (y % 100 ≠ 0) || decide (y % 400 = 0))

/-- Length of a month as `datetime` validates it. -/
def daysInMonth (y m : Nat) : Nat :=
  match m with
  | 1 => 31 | 2 => if leapYear y then 29 else 28 | 3 => 31 | 4 => 30
  | 5 => 31 | 6 => 30 | 7 => 31 | 8 => 31 | 9 => 30 | 10 => 31
  | 11 => 30 | 12 => 31 | _ => 0

/-- Range checks `datetime(year, month, day, hour, minute)` performs; a
failed check is a raised `ValueError`. -/
def validDT (d : DateTime) : Bool :=
  decide (1 ≤ d.year) && decide (d.year ≤ 9999) &&
  decide (1 ≤ d.month) && decide (d.month ≤ 12) &&
  decide (1 ≤ d.day) && decide (d.day ≤ daysInMonth d.year d.month) &&
  decide (d.hour ≤ 23) && decide (d.minute ≤ 59)

def mkChecked (y m day h mi : Nat) : Option DateTime :=
  let dt : DateTime := ⟨y, m, day, h, mi⟩
  if validDT dt then some dt else none

/-! ## strptime: field parsers

Each parser consumes a prefix of the character list and follows the regex
CPython compiles for the directive (alternatives tried in order). -/

/-- Character class `[1-9]`. -/
def digit19 (c : Char) : Bool := decide ('1' ≤ c) && decide (c ≤ '9')

/-- Directive `%d`, regex `3[0-1]|[1-2]\d|0[1-9]|[1-9]| [1-9]`. -/
def pDay : List Char → Option (Nat × List Char)
  | c1 :: c2 :: r =>
    if c1 = '3' && (c2 = '0' || c2 = '1') then some (30 + dv c2, r)
    else if (c1 = '1' || c1 = '2') && isDigitCh c2 then some (10 * dv c1 + dv c2, r)
    else if c1 = '0' && digit19 c2 then some (dv c2, r)
    else if digit19 c1 then some (dv c1, c2 :: r)
    else if c1 = ' ' && digit19 c2 then some (dv c2, r)
    else none
  | [c1] => if digit19 c1 then some (dv c1, []) else none
  | [] => none

/-- Directive `%I`, regex `1[0-2]|0[1-9]|[1-9]`. -/
def pHour12 : List Char → Option (Nat × List Char)
  | c1 :: c2 :: r =>
    if c1 = '1' && (c2 = '0' || c2 = '1' || c2 = '2') then some (10 + dv c2, r)
    else if c1 = '0' && digit19 c2 then some (dv c2, r)
    else if digit19 c1 then some (dv c1, c2 :: r)
    else none
  | [c1] => if digit19 c1 then some (dv c1, []) else none
  | [] => none

/-- Directive `%H`, regex `2[0-3]|[0-1]\d|\d`. -/
def pHour24 : List Char → Option (Nat × List Char)
  | c1 :: c2 :: r =>
    if c1 = '2' && (c2 = '0' || c2 = '1' || c2 = '2' || c2 = '3') then some (20 + dv c2, r)
    else if (c1 = '0' || c1 = '1') && isDigitCh c2 then some (10 * dv c1 + dv c2, r)
    else if isDigitCh c1 then some (dv c1, c2 :: r)
    else none
  | [c1] => if isDigitCh c1 then some (dv c1, []) else none
  | [] => none

/-- Directive `%M`, regex `[0-5]\d|\d`. -/
def pMin : List Char → Option (Nat × List Char)
  | c1 :: c2 :: r =>
    if (decide ('0' ≤ c1) && decide (c1 ≤ '5')) && isDigitCh c2 then
      some (10 * dv c1 + dv c2, r)
    else if isDigitCh c1 then some (dv c1, c2 :: r)
    else none
  | [c1] => if isDigitCh c1 then some (dv c1, []) else none
  | [] => none

/-- Directive `%Y`, regex `\d\d\d\d` (exactly four digits). -/
def pYear4 : List Char → Option (Nat × List Char)
  | a :: b :: c :: d :: r =>
    if isDigitCh a && isDigitCh b && isDigitCh c && isDigitCh d then
      some (((dv a * 10 + dv b) * 10 + dv c) * 10 + dv d, r)
    else none
  | _ => none

/-- Case-insensitive literal-word match (strptime compiles with
IGNORECASE; the pattern word is stored lowercase). -/
def matchCI : List Char → List Char → Option (List Char)
  | [], s => some s
  | _ :: _, [] => none
  | p :: ps, c :: cs => if c.toLower = p then matchCI ps cs else none

/-- Named alternation, first match wins (the regex alternation order). -/
def pMon : List (List Char × Nat) → List Char → Option (Nat × List Char)
  | [], _ => none
  | (nm, v) :: t, s =>
    match matchCI nm s with
    | some r => some (v, r)
    | none => pMon t s

/-- Directive `%b` alternation, in regex order. -/
def monAbbrevTable : List (List Char × Nat) :=
  [(['j','a','n'], 1), (['f','e','b'], 2), (['m','a','r'], 3), (['a','p','r'], 4),
   (['m','a','y'], 5), (['j','u','n'], 6), (['j','u','l'], 7), (['a','u','g'], 8),
   (['s','e','p'], 9), (['o','c','t'], 10), (['n','o','v'], 11), (['d','e','c'], 12)]

/-- Directive `%B` alternation, in regex order (sorted by length). -/
def monFullTable : List (List Char × Nat) :=
  [(['s','e','p','t','e','m','b','e','r'], 9), (['f','e','b','r','u','a','r','y'], 2),
   (['n','o','v','e','m','b','e','r'], 11), (['d','e','c','e','m','b','e','r'], 12),
   (['j','a','n','u','a','r','y'], 1), (['o','c','t','o','b','e','r'], 10),
   (['a','u','g','u','s','t'], 8), (['m','a','r','c','h'], 3),
   (['a','p','r','i','l'], 4), (['j','u','n','e'], 6), (['j','u','l','y'], 7),
   (['m','a','y'], 5)]

/-- Directive `%p`, regex `am|pm` (IGNORECASE); `true` means PM. -/
def pAmPm (s : List Char) : Option (Bool × List Char) :=
  match matchCI ['a','m'] s with
  | some r => some (false, r)
  | none =>
    match matchCI ['p','m'] s with
    | some r => some (true, r)
    | none => none

/-- Whitespace characters of the regex class `\s` (ASCII part). -/
def wsChar (c : Char) : Bool := c = ' ' || c = '\t' || c = '\n' || c = '\r'

/-- A literal blank in a strptime format compiles to `\s+`. -/
def pWs : List Char → Option (List Char)
  | c :: r => if wsChar c then some (r.dropWhile wsChar) else none
  | [] => none

/-- Exact literal character (`:` in the formats at hand). -/
def pLit (c : Char) : List Char → Option (List Char)
  | x :: r => if x = c then some r else none
  | [] => none

/-- Conversion of `%I` plus `%p` into a 24h hour, as `_strptime` does it. -/
def hour12To24 (h : Nat) (pm : Bool) : Nat :=
  if pm then (if h = 12 then 12 else h + 12) else (if h = 12 then 0 else h)

/-! ## strptime: the six formats of the backend -/

/-- Time part `%I:%M %p` of a format, yielding ((hour, minute), rest). -/
def stpIMp (s : List Char) : Option ((Nat × Nat) × List Char) :=
  (pHour12 s).bind fun p1 =>
  (pLit ':' p1.2).bind fun s2 =>
  (pMin s2).bind fun p2 =>
  (pWs p2.2).bind fun s3 =>
  (pAmPm s3).bind fun p3 =>
  some ((hour12To24 p1.1 p3.1, p2.1), p3.2)

/-- Time part `%H:%M` of a format. -/
def stpHM (s : List Char) : Option ((Nat × Nat) × List Char) :=
  (pHour24 s).bind fun p1 =>
  (pLit ':' p1.2).bind fun s2 =>
  (pMin s2).bind fun p2 =>
  some ((p1.1, p2.1), p2.2)

/-- Date-with-year format `%d <mon> %Y <time>`; strptime accepts only a
full match and validates the assembled date. -/
def stpFull (mon : List (List Char × Nat))
    (timeP : List Char → Option ((Nat × Nat) × List Char))
    (s : List Char) : Option DateTime :=
  (pDay s).bind fun pd =>
  (pWs pd.2).bind fun s1 =>
  (pMon mon s1).bind fun pm =>
  (pWs pm.2).bind fun s2 =>
  (pYear4 s2).bind fun py =>
  (pWs py.2).bind fun s3 =>
  (timeP s3).bind fun pt =>
  if pt.2 = [] then mkChecked py.1 pm.1 pd.1 pt.1.1 pt.1.2 else none

/-- Year-less format `%d <mon> %I:%M %p`; strptime defaults the year
to 1900 and validates against it. -/
def stpNoYear (mon : List (List Char × Nat)) (s : List Char) : Option DateTime :=
  (pDay s).bind fun pd =>
  (pWs pd.2).bind fun s1 =>
  (pMon mon s1).bind fun pm =>
  (pWs pm.2).bind fun s2 =>
  (stpIMp s2).bind fun pt =>
  if pt.2 = [] then mkChecked 1900 pm.1 pd.1 pt.1.1 pt.1.2 else none

def strptimeFmt1 : List Char → Option DateTime := stpFull monAbbrevTable stpIMp
def strptimeFmt2 : List Char → Option DateTime := stpFull monFullTable stpIMp
def strptimeFmt3 : List Char → Option DateTime := stpFull monAbbrevTable stpHM
def strptimeFmt4 : List Char → Option DateTime := stpFull monFullTable stpHM
def strptimeFmt5 : List Char → Option DateTime := stpNoYear monAbbrevTable
def strptimeFmt6 : List Char → Option DateTime := stpNoYear monFullTable

/-! ## strftime of the two canonical patterns -/

/-- Month abbreviation as `%b` prints it. -/
def monthName3 (m : Nat) : List Char :=
  match m with
  | 1 => ['J','a','n'] | 2 => ['F','e','b'] | 3 => ['M','a','r'] | 4 => ['A','p','r']
  | 5 => ['M','a','y'] | 6 => ['J','u','n'] | 7 => ['J','u','l'] | 8 => ['A','u','g']
  | 9 => ['S','e','p'] | 10 => ['O','c','t'] | 11 => ['N','o','v'] | 12 => ['D','e','c']
  | _ => []

/-- Hour on the 12-hour clock with a PM flag, as `%I`/`%p` print it. -/
def to12 (h : Nat) : Nat × Bool :=
  if h = 0 then (12, false)
  else if h < 12 then (h, false)
  else if h = 12 then (12, true)
  else (h - 12, true)

def ampmChars (pm : Bool) : List Char := if pm then ['P','M'] else ['A','M']

/-- Output of `strftime("%d %b %Y")` (glibc: the year is printed as a
plain decimal numeral, unpadded). -/
def strfDate (d : DateTime) : List Char :=
  pad2 d.day ++ ' ' :: (monthName3 d.month ++ ' ' :: natToChars d.year)

/-- Output of `strftime("%I:%M %p")`. -/
def strfTime (d : DateTime) : List Char :=
  pad2 (to12 d.hour).1 ++ ':' :: (pad2 d.minute ++ ' ' :: ampmChars (to12 d.hour).2)

/-! ## parse_flexible_datetime (agent_tools.py) -/

/-- Two characters that form an ordinal suffix `st|nd|rd|th`. -/
def isOrdPair (a b : Char) : Bool :=
  (a = 's' && b = 't') || (a = 'n' && b = 'd') || (a = 'r' && b = 'd') ||
  (a = 't' && b = 'h')

/-- Scanner equivalent of `re.sub(r'(\d+)(st|nd|rd|th)', r'\1', s)`: an
ordinal suffix is removed exactly when it immediately follows a digit. -/
def stripOrdAux : Bool → List Char → List Char
  | _, [] => []
  | _, [c] => [c]
  | prev, c :: c2 :: cs =>
    if isDigitCh c then c :: stripOrdAux true (c2 :: cs)
    else if prev && isOrdPair c c2 then stripOrdAux false cs
    else c :: stripOrdAux false (c2 :: cs)

def stripOrdinals (s : List Char) : List Char := stripOrdAux false s

/-- First parse that succeeds, as the source's fallback loops. -/
def firstSome : List (Option α) → Option α
  | [] => none
  | some x :: _ => some x
  | none :: t => firstSome t

/-- Model of `datetime.replace(year=y)`: the new date is re-validated. -/
def replaceYear (y : Nat) (d : DateTime) : Option DateTime :=
  if validDT { d with year := y } then some { d with year := y } else none

/-- Core of `parse_flexible_datetime`: the `parsed_dt` value it builds, or
`none` where the source raises `ValueError`. -/
def parseFlexibleDT (currentYear : Nat) (dateStr timeStr : List Char) :
    Option DateTime :=
  let clean := stripOrdinals dateStr
  let s := clean ++ ' ' :: timeStr
  firstSome [strptimeFmt1 s, strptimeFmt2 s, strptimeFmt3 s, strptimeFmt4 s,
    (strptimeFmt5 s).bind (replaceYear currentYear),
    (strptimeFmt6 s).bind (replaceYear currentYear)]

/-- Return value of `parse_flexible_datetime`: the canonical pair
`(strftime("%d %b %Y"), strftime("%I:%M %p"))`. -/
def parse_flexible_datetime (currentYear : Nat) (dateStr timeStr : List Char) :
    Option (List Char × List Char) :=
  (parseFlexibleDT currentYear dateStr timeStr).map fun d => (strfDate d, strfTime d)

/-! ## Data model: persisted rows -/

structure Reminder where
  id : Nat
  pair_id : List Char
  title : List Char
  date : List Char
  time : List Char
deriving DecidableEq, Repr

structure PairRec where
  id : List Char
  patient_user_id : Option (List Char)
  caretaker_user_id : Option (List Char)
deriving DecidableEq, Repr

structure UserRec where
  id : List Char
  fcm_token : Option (List Char)
deriving DecidableEq, Repr

/-- Order-reflecting value of a DateTime (fields are below their slot
bounds for every value `datetime` accepts, so comparing these numbers is
the lexicographic component comparison Python's `datetime` order uses). -/
def dtVal (d : DateTime) : Nat :=
  (((d.year * 12 + (d.month - 1)) * 31 + (d.day - 1)) * 24 + d.hour) * 60 + d.minute

/-- Wall-clock instant `datetime.now()`: a minute-granular DateTime plus
the seconds within the minute. -/
structure Instant where
  dt : DateTime
  second : Nat
deriving DecidableEq, Repr

def secVal (i : Instant) : Nat := dtVal i.dt * 60 + i.second

/-! ## Agent tools (agent_tools.py) -/

/-- ASCII lowering of `str.lower()` as applied to the reminder titles. -/
def lowerStr (s : List Char) : List Char := s.map Char.toLower

def startsWithChars : List Char → List Char → Bool
  | [], _ => true
  | _ :: _, [] => false
  | p :: ps, c :: cs => p = c && startsWithChars ps cs

/-- Substring containment, Python's `in` on strings. -/
def hasSub (pat : List Char) : List Char → Bool
  | [] => pat.isEmpty
  | c :: cs => startsWithChars pat (c :: cs) || hasSub pat cs

def errFmtMsg : List Char :=
  "Error: Invalid date format. Please use format like \x2725 Jan 2026\x27 and \x275:00 PM\x27.".data

def createdMsg (title fd ft : List Char) : List Char :=
  "Reminder created successfully! I\x27ll remind you about \x27".data ++ title ++
    "\x27 on ".data ++ fd ++ " at ".data ++ ft ++ ".".data

/-- Tool `create_reminder`: parse, persist, confirm.  The database is the
list of rows, `newId` the autoincrement key the insert would get, `cy`
the current year `datetime.now().year` read by the parser. -/
def create_reminder (cy newId : Nat) (db : List Reminder)
    (pid title date time : List Char) : List Char × List Reminder :=
  match parse_flexible_datetime cy date time with
  | none => (errFmtMsg, db)
  | some (fd, ft) => (createdMsg title fd ft, db ++ [⟨newId, pid, title, fd, ft⟩])

def msgNoRem : List Char := "You don\x27t have any reminders set right now.".data

def msgAllPassed : List Char :=
  "All your reminders have passed. You don\x27t have any upcoming reminders.".data

/-- Upcoming filter of `list_reminders`: re-parse the stored strings with
the canonical format; skip rows that fail to parse; keep rows at or after
`now`. -/
def upcomingOf (now : Instant) (rs : List Reminder) : List Reminder :=
  rs.filter fun r =>
    match strptimeFmt1 (r.date ++ ' ' :: r.time) with
    | some d => decide (secVal now ≤ dtVal d * 60)
    | none => false

/-- Line `f"{idx}. {title} - {date} at {time}"`. -/
def renderItem (idx : Nat) (r : Reminder) : List Char :=
  natToChars idx ++ ". ".data ++ r.title ++ " - ".data ++ r.date ++ " at ".data ++ r.time

/-- Python `"\n".join`. -/
def joinNL : List (List Char) → List Char
  | [] => []
  | [x] => x
  | x :: y :: t => x ++ '\n' :: joinNL (y :: t)

/-- Numbered rendering starting at index `i` (the `enumerate(_, 1)` loop). -/
def numberFrom (i : Nat) : List Reminder → List (List Char)
  | [] => []
  | r :: t => renderItem i r :: numberFrom (i + 1) t

def listHeader (n : Nat) : List Char :=
  "You have ".data ++ natToChars n ++ " upcoming reminder(s):\n".data

/-- Tool `list_reminders`. -/
def list_reminders (now : Instant) (db : List Reminder) (pid : List Char) : List Char :=
  let reminders := db.filter fun r => decide (r.pair_id = pid)
  if reminders.isEmpty then msgNoRem
  else
    let upcoming := upcomingOf now reminders
    if upcoming.isEmpty then msgAllPassed
    else listHeader upcoming.length ++ joinNL (numberFrom 1 upcoming)

def notFoundMsg (frag : List Char) : List Char :=
  "I couldn\x27t find a reminder matching \x27".data ++ frag ++ "\x27.".data

def deletedMsg (title : List Char) : List Char :=
  "I\x27ve deleted the reminder \x27".data ++ title ++ "\x27.".data

/-- Tool `delete_reminder`: case-insensitive substring match over the
key's rows; `matching[0]` is deleted whenever the match list is
non-empty. -/
def delete_reminder (db : List Reminder) (pid frag : List Char) :
    List Char × List Reminder :=
  let reminders := db.filter fun r => decide (r.pair_id = pid)
  let matching := reminders.filter fun r => hasSub (lowerStr frag) (lowerStr r.title)
  match matching with
  | [] => (notFoundMsg frag, db)
  | m :: _ => (deletedMsg m.title, db.eraseP fun r => decide (r.id = m.id))

/-! ## Reminder scheduler (scheduler.py) -/

/-- Due test of `check_reminders_job`: exact string equality of the
stored fields with the minute-formatted now. -/
def isDue (now : DateTime) (r : Reminder) : Bool :=
  decide (r.date = strfDate now) && decide (r.time = strfTime now)

def dueReminders (now : DateTime) (db : List Reminder) : List Reminder :=
  db.filter (isDue now)

def findPair (pairs : List PairRec) (pid : List Char) : Option PairRec :=
  pairs.find? fun p => decide (p.id = pid)

def findUser (users : List UserRec) (uid : List Char) : Option UserRec :=
  users.find? fun u => decide (u.id = uid)

/-- Token collection of `_process_due_reminder` (patient first, then
caretaker; missing user or token contributes nothing). -/
def tokensFor (p : PairRec) (users : List UserRec) : List (List Char) :=
  (match p.patient_user_id with
   | some uid =>
     match findUser users uid with
     | some u => match u.fcm_token with | some t => [t] | none => []
     | none => []
   | none => []) ++
  (match p.caretaker_user_id with
   | some uid =>
     match findUser users uid with
     | some u => match u.fcm_token with | some t => [t] | none => []
     | none => []
   | none => [])

inductive SchedEvent where
  | push (tokens : List (List Char)) (result : Option Bool)
  | expired (id : Nat)
deriving DecidableEq, Repr

/-- Model of `send_multicast_notification` (firebase_service.py): empty
token list returns `None` early; the whole send is wrapped in
`try/except`, returning `True` on success and `False` when the transport
raised — the function never propagates an exception, so it is total. -/
def send_multicast_notification (transportOk : Bool) (tokens : List (List Char)) :
    Option Bool :=
  if tokens.isEmpty then none
  else if transportOk then some true else some false

/-- Observable effects of `_process_due_reminder`: missing pair returns
early; a push is dispatched when tokens exist; the EXPIRED broadcast
follows unconditionally. -/
def process_due_reminder (pairs : List PairRec) (users : List UserRec)
    (transportOk : Bool) (r : Reminder) : List SchedEvent :=
  match findPair pairs r.pair_id with
  | none => []
  | some p =>
    let tokens := tokensFor p users
    (if tokens.isEmpty then []
     else [SchedEvent.push tokens (send_multicast_notification transportOk tokens)]) ++
    [SchedEvent.expired r.id]

/-- Events of one `check_reminders_job` tick. -/
def check_reminders_events (now : DateTime) (db : List Reminder)
    (pairs : List PairRec) (users : List UserRec) (transportOk : Bool) :
    List SchedEvent :=
  (dueReminders now db).flatMap (process_due_reminder pairs users transportOk)

/-- Calendar successor at minute granularity: what one 60-second
scheduler period does to the minute-truncated wall clock. -/
def nextMinute (d : DateTime) : DateTime :=
  if d.minute < 59 then { d with minute := d.minute + 1 }
  else if d.hour < 23 then { d with hour := d.hour + 1, minute := 0 }
  else if d.day < daysInMonth d.year d.month then
    { d with day := d.day + 1, hour := 0, minute := 0 }
  else if d.month < 12 then
    { d with month := d.month + 1, day := 1, hour := 0, minute := 0 }
  else { year := d.year + 1, month := 1, day := 1, hour := 0, minute := 0 }

/-- Minute-truncated now of the k-th scheduler tick after start. -/
def tickDT (t0 : DateTime) : Nat → DateTime
  | 0 => t0
  | k + 1 => nextMinute (tickDT t0 k)

/-- Well-formed wall-clock value (no upper year bound: the clock keeps
running). -/
def WfDT (d : DateTime) : Prop :=
  1 ≤ d.month ∧ d.month ≤ 12 ∧ 1 ≤ d.day ∧ d.day ≤ daysInMonth d.year d.month ∧
    d.hour ≤ 23 ∧ d.minute ≤ 59

/-! ## ConnectionManager (websocket_manager.py)

Connections are opaque distinct handles, modelled as naturals.  The
broadcast methods iterate Python's index-based `for` over the live list
stored in the dict; a failed send calls `disconnect`, which removes the
connection from the same list in place.  `sendOk c` tells whether
`c.send_json` succeeds; the loop returns the final list and the list of
connections that were actually sent to. -/

def bcastLoop (sendOk : Nat → Bool) (exclude : Option Nat) :
    Nat → List Nat → Nat → List Nat → List Nat × List Nat
  | 0, lst, _, delivered => (lst, delivered)
  | fuel + 1, lst, i, delivered =>
    match lst[i]? with
    | none => (lst, delivered)
    | some c =>
      if some c = exclude then bcastLoop sendOk exclude fuel lst (i + 1) delivered
      else if sendOk c then bcastLoop sendOk exclude fuel lst (i + 1) (delivered ++ [c])
      else bcastLoop sendOk exclude fuel (lst.erase c) (i + 1) delivered

/-- Method `broadcast_json` restricted to one key's connection list (the
`pair_id not in active_connections` guard is the empty list here). -/
def broadcast_json (sendOk : Nat → Bool) (exclude : Option Nat) (lst : List Nat) :
    List Nat × List Nat :=
  bcastLoop sendOk exclude lst.length lst 0 []

/-! ## Agent orchestrator (langgraph_agent.py, api/v1/chatbot/agent.py) -/

structure HEntry where
  role : List Char
  content : List Char
deriving DecidableEq, Repr

/-- Function `add_to_agent_history`: append, then keep the last ten when
the cap is exceeded (Python `[-10:]`). -/
def add_to_agent_history (hist : List HEntry) (e : HEntry) : List HEntry :=
  let h := hist ++ [e]
  if 10 < h.length then h.drop (h.length - 10) else h

structure ToolCall where
  name : List Char
  args : List (List Char × List Char)
deriving DecidableEq, Repr

/-- Outcome of the oracle invocation `llm.ainvoke`: a raised exception, or
a response with tool calls and text content. -/
inductive OracleResult where
  | fail
  | ok (toolCalls : List ToolCall) (content : List Char)

def TOOL_NAMES : List (List Char) :=
  ["create_reminder".data, "list_reminders".data, "delete_reminder".data,
   "send_emergency_alert".data]

def pairIdKey : List Char := "pair_id".data

/-- Python dict assignment `m[k] = v` on an association list. -/
def setKV : List (List Char × List Char) → List Char → List Char →
    List (List Char × List Char)
  | [], k, v => [(k, v)]
  | (k', v') :: t, k, v => if k' = k then (k, v) :: t else (k', v') :: setKV t k v

/-- The pair_id correction of `run_agent`: `if "pair_id" not in tool_args
or tool_args["pair_id"] != pair_id: tool_args["pair_id"] = pair_id`. -/
def fixToolArgs (pid : List Char) (args : List (List Char × List Char)) :
    List (List Char × List Char) :=
  if List.lookup pairIdKey args ≠ some pid then setKV args pairIdKey pid else args

def fallbackMsg : List Char :=
  "I\x27m having trouble connecting right now. Please try again.".data

def unknownToolMsg : List Char := "I tried to use a tool I don\x27t have.".data

def heardMsg : List Char := "I heard you, but I\x27m not sure what to do.".data

/-- Function `run_agent`, abstracted over the oracle outcome and the tool
execution (`toolImpl name args` is the message the invoked tool returns).
Result: the returned text, plus the tool invocation that was executed, if
any, with the argument map actually passed to it. -/
def run_agent (oracle : OracleResult)
    (toolImpl : List Char → List (List Char × List Char) → List Char)
    (pair_id : List Char) :
    List Char × Option (List Char × List (List Char × List Char)) :=
  match oracle with
  | .fail => (fallbackMsg, none)
  | .ok calls content =>
    match calls with
    | [] => (if content.isEmpty then heardMsg else content, none)
    | tc :: _ =>
      if tc.name ∈ TOOL_NAMES then
        let args := fixToolArgs pair_id tc.args
        (toolImpl tc.name args, some (tc.name, args))
      else (unknownToolMsg, none)

def userRole : List Char := "user".data
def assistantRole : List Char := "assistant".data

/-- One message turn of the websocket entry point `ws_agent_chat`: the
user entry is appended before `run_agent` runs and the assistant entry
after it returns. -/
def wsAgentTurn (oracle : OracleResult)
    (toolImpl : List Char → List (List Char × List Char) → List Char)
    (pair_id : List Char) (hist : List HEntry) (msg : List Char) :
    List Char × List HEntry :=
  let h1 := add_to_agent_history hist (HEntry.mk userRole msg)
  let resp := (run_agent oracle toolImpl pair_id).1
  (resp, add_to_agent_history h1 ⟨assistantRole, resp⟩)

/-- One request of the HTTP entry point `agent_chat`: `run_agent` runs
first, then the user and assistant entries are appended. -/
def httpAgentTurn (oracle : OracleResult)
    (toolImpl : List Char → List (List Char × List Char) → List Char)
    (pair_id : List Char) (hist : List HEntry) (msg : List Char) :
    List Char × List HEntry :=
  let resp := (run_agent oracle toolImpl pair_id).1
  let h1 := add_to_agent_history hist (HEntry.mk userRole msg)
  (resp, add_to_agent_history h1 ⟨assistantRole, resp⟩)

/-! ## Specification-side comparison definitions

These definitions follow the spec's words, not the source; they exist
only to be compared against the source-derived functions above. -/

/-- Parsed instant of a stored row (0 where the row does not parse),
the sort key the spec's "sorts ascending" sentence refers to. -/
def remKey (r : Reminder) : Nat :=
  match strptimeFmt1 (r.date ++ ' ' :: r.time) with
  | some d => dtVal d
  | none => 0

def insertAsc (r : Reminder) : List Reminder → List Reminder
  | [] => [r]
  | x :: t => if remKey r ≤ remKey x then r :: x :: t else x :: insertAsc r t

def sortAscRem : List Reminder → List Reminder
  | [] => []
  | r :: t => insertAsc r (sortAscRem t)

/-- Rendering the spec sentence for `list_reminders` demands: the kept
entries sorted ascending by parsed instant before numbering. -/
def specListRemindersSorted (now : Instant) (db : List Reminder) (pid : List Char) :
    List Char :=
  let reminders := db.filter fun r => decide (r.pair_id = pid)
  if reminders.isEmpty then msgNoRem
  else
    let upcoming := sortAscRem (upcomingOf now reminders)
    if upcoming.isEmpty then msgAllPassed
    else listHeader upcoming.length ++ joinNL (numberFrom 1 upcoming)

/-- Independent (spec-worded, minus the refuted sorting step) rendering of
the reminder list: fetch the key's rows, keep rows whose parsed instant is
at or after now, number them in fetched order. -/
def specListRemindersUnsorted (now : Instant) (db : List Reminder) (pid : List Char) :
    List Char :=
  let fetched := db.filter fun r => decide (r.pair_id = pid)
  if fetched = [] then msgNoRem
  else
    let ups := fetched.filter fun r =>
      match strptimeFmt1 (r.date ++ ' ' :: r.time) with
      | some d => decide (secVal now ≤ dtVal d * 60)
      | none => false
    if ups = [] then msgAllPassed
    else
      listHeader ups.length ++
        joinNL ((ups.enumFrom 1).map fun p => renderItem p.1 p.2)

/-! # Theorems

## Decimal-numeral lemmas -/

theorem ntcAux_fuel_irrel : ∀ n f g : Nat, n < f → n < g → ntcAux f n = ntcAux g n := by
  intro n
  induction n using Nat.strong_induction_on with
  | _ n ih =>
    intro f g hf hg
    cases f with
    | zero => omega
    | succ f =>
      cases g with
      | zero => omega
      | succ g =>
        simp only [ntcAux]
        by_cases h : n < 10
        · simp [h]
        · have hd : n / 10 < n := Nat.div_lt_self (by omega) (by omega)
          simp only [h, if_false]
          rw [ih (n / 10) hd f g (by omega) (by omega)]

theorem natToChars_lt_ten {n : Nat} (h : n < 10) : natToChars n = [digitChar n] := by
  simp [natToChars, ntcAux, h]

theorem natToChars_ge_ten {n : Nat} (h : 10 ≤ n) :
    natToChars n = natToChars (n / 10) ++ [digitChar (n % 10)] := by
  have hd : n / 10 < n := Nat.div_lt_self (by omega) (by omega)
  have hstep : ntcAux (n + 1) n =
      if n < 10 then [digitChar n] else ntcAux n (n / 10) ++ [digitChar (n % 10)] := rfl
  have h10 : ¬ n < 10 := by omega
  show ntcAux (n + 1) n = ntcAux (n / 10 + 1) (n / 10) ++ [digitChar (n % 10)]
  rw [hstep, if_neg h10, ntcAux_fuel_irrel (n / 10) n (n / 10 + 1) (by omega) (by omega)]

theorem digitChar_inj {a b : Nat} (ha : a < 10) (hb : b < 10)
    (h : digitChar a = digitChar b) : a = b := by
  interval_cases a <;> interval_cases b <;> simp_all [digitChar]

theorem natToChars_ne_nil (n : Nat) : natToChars n ≠ [] := by
  by_cases h : n < 10
  · rw [natToChars_lt_ten h]; simp
  · rw [natToChars_ge_ten (by omega)]; simp

theorem natToChars_inj : ∀ a b : Nat, natToChars a = natToChars b → a = b := by
  intro a
  induction a using Nat.strong_induction_on with
  | _ a ih =>
    intro b h
    by_cases ha : a < 10 <;> by_cases hb : b < 10
    · rw [natToChars_lt_ten ha, natToChars_lt_ten hb] at h
      exact digitChar_inj ha hb (by simpa using h)
    · rw [natToChars_lt_ten ha, natToChars_ge_ten (by omega)] at h
      have := congrArg List.length h
      simp at this
      have := natToChars_ne_nil (b / 10)
      cases hnb : natToChars (b / 10) <;> simp_all
    · rw [natToChars_ge_ten (by omega), natToChars_lt_ten hb] at h
      have := congrArg List.length h
      simp at this
      have := natToChars_ne_nil (a / 10)
      cases hna : natToChars (a / 10) <;> simp_all
    · rw [natToChars_ge_ten (show 10 ≤ a by omega)] at h
      rw [natToChars_ge_ten (show 10 ≤ b by omega)] at h
      obtain ⟨h1, h2⟩ := List.append_inj' h (by simp)
      have hq : a / 10 = b / 10 := ih (a / 10) (by omega) (b / 10) h1
      have hr : a % 10 = b % 10 :=
        digitChar_inj (Nat.mod_lt _ (by omega)) (Nat.mod_lt _ (by omega))
          (by simpa using h2)
      omega

/-! ## Agent-history lemmas (C9, reused by C4) -/

theorem addHist_small {hist : List HEntry} (e : HEntry) (h : hist.length + 1 ≤ 10) :
    add_to_agent_history hist e = hist ++ [e] := by
  simp only [add_to_agent_history]
  rw [if_neg]
  simp
  omega

theorem addHist_full {hist : List HEntry} (e : HEntry) (h : hist.length = 10) :
    add_to_agent_history hist e = (hist ++ [e]).drop 1 := by
  simp only [add_to_agent_history]
  rw [if_pos] <;> simp [h]

theorem foldl_addHist :
    ∀ (msgs : List HEntry) (hist : List HEntry), hist.length ≤ 10 →
      msgs.foldl add_to_agent_history hist =
        (hist ++ msgs).drop ((hist ++ msgs).length - 10) := by
  intro msgs
  induction msgs with
  | nil =>
    intro hist h
    simp [Nat.sub_eq_zero_of_le h]
  | cons m ms ih =>
    intro hist h
    rw [List.foldl_cons]
    rcases Nat.lt_or_ge hist.length 10 with hlt | hge
    · rw [addHist_small m (by omega), ih _ (by simp; omega)]
      rw [List.append_assoc]
      simp
    · have h10 : hist.length = 10 := by omega
      rw [addHist_full m h10, ih _ (by simp [h10])]
      rw [← List.drop_append_of_le_length (by simp)]
      rw [List.drop_drop]
      have hx : hist ++ [m] ++ ms = hist ++ m :: ms := by simp
      rw [hx]
      congr 1
      simp [h10]
      omega

/-- C9: for every sequence of appends through `add_to_agent_history`
starting from the empty per-user history, the resulting history never
exceeds ten entries and always equals the most recent ten appended
entries in order (the oldest are dropped first). -/
theorem agent_history_cap (msgs : List HEntry) :
    (msgs.foldl add_to_agent_history []).length ≤ 10 ∧
    msgs.foldl add_to_agent_history [] = msgs.drop (msgs.length - 10) := by
  have h := foldl_addHist msgs [] (by simp)
  simp only [List.nil_append] at h
  refine ⟨?_, h⟩
  rw [h, List.length_drop]
  omega

/-! ## Oracle-failure turn handling (C4) -/

/-- C4 counterexample: with a failing oracle, the websocket entry point
still records the turn — the user message and the fallback reply land in
the history, so the history is not left unchanged. -/
theorem failed_turn_is_recorded :
    (wsAgentTurn .fail (fun _ _ => []) "P".data [] "hi".data).1 = fallbackMsg ∧
    (wsAgentTurn .fail (fun _ _ => []) "P".data [] "hi".data).2 =
      [(HEntry.mk userRole "hi".data), (HEntry.mk assistantRole fallbackMsg)] ∧
    (wsAgentTurn .fail (fun _ _ => []) "P".data [] "hi".data).2 ≠ ([] : List HEntry) := by
  refine ⟨rfl, rfl, ?_⟩
  decide

/-- C4 amended: when the oracle invocation fails, `run_agent` returns the
fixed fallback apology, but the turn is still recorded at both entry
points: the user message and the fallback reply are appended to the
session history (subject to the ten-entry trim). -/
theorem oracle_failure_fallback_records_turn
    (toolImpl : List Char → List (List Char × List Char) → List Char)
    (pid : List Char) (hist : List HEntry) (msg : List Char)
    (h : hist.length ≤ 10) :
    (run_agent .fail toolImpl pid).1 = fallbackMsg ∧
    wsAgentTurn .fail toolImpl pid hist msg =
      (fallbackMsg,
        (hist ++ [(HEntry.mk userRole msg), (HEntry.mk assistantRole fallbackMsg)]).drop
          ((hist ++ [(HEntry.mk userRole msg), (HEntry.mk assistantRole fallbackMsg)]).length - 10)) ∧
    httpAgentTurn .fail toolImpl pid hist msg =
      (fallbackMsg,
        (hist ++ [(HEntry.mk userRole msg), (HEntry.mk assistantRole fallbackMsg)]).drop
          ((hist ++ [(HEntry.mk userRole msg), (HEntry.mk assistantRole fallbackMsg)]).length - 10)) := by
  have hh := foldl_addHist [(HEntry.mk userRole msg), (HEntry.mk assistantRole fallbackMsg)] hist h
  simp only [List.foldl_cons, List.foldl_nil] at hh
  have hws : wsAgentTurn .fail toolImpl pid hist msg =
      (fallbackMsg, add_to_agent_history
        (add_to_agent_history hist (HEntry.mk userRole msg)) (HEntry.mk assistantRole fallbackMsg)) := rfl
  have hhttp : httpAgentTurn .fail toolImpl pid hist msg =
      (fallbackMsg, add_to_agent_history
        (add_to_agent_history hist (HEntry.mk userRole msg)) (HEntry.mk assistantRole fallbackMsg)) := rfl
  exact ⟨rfl, by rw [hws, hh], by rw [hhttp, hh]⟩

/-- C4 witness for the amended theorem, at the empty history. -/
theorem oracle_failure_fallback_records_turn_witness :
    ([] : List HEntry).length ≤ 10 ∧
    wsAgentTurn .fail (fun _ _ => []) "P".data [] "m".data =
      (fallbackMsg, [(HEntry.mk userRole "m".data), (HEntry.mk assistantRole fallbackMsg)]) :=
  ⟨by decide,
   (oracle_failure_fallback_records_turn (fun _ _ => []) "P".data [] "m".data
      (by decide)).2.1⟩

/-! ## Session-key enforcement (C8) -/

theorem lookup_setKV (k v : List Char) :
    ∀ args, List.lookup k (setKV args k v) = some v := by
  intro args
  induction args with
  | nil => simp [setKV, List.lookup]
  | cons p t ih =>
    obtain ⟨k', v'⟩ := p
    by_cases hk : k' = k
    · simp [setKV, hk, List.lookup]
    · have hkk : (k == k') = false := beq_eq_false_iff_ne.mpr (Ne.symm hk)
      simp [setKV, hk, List.lookup, ih, hkk]

theorem fixToolArgs_lookup (pid : List Char) (args : List (List Char × List Char)) :
    List.lookup pairIdKey (fixToolArgs pid args) = some pid := by
  unfold fixToolArgs
  by_cases h : List.lookup pairIdKey args = some pid
  · simp [h]
  · simp [h, lookup_setKV]

/-- C8: whatever tool call the oracle proposes and whatever `pair_id`
value it supplies (absent, correct or wrong), the argument map `run_agent`
passes to the executed tool carries the orchestrator's own session
`pair_id`. -/
theorem tool_gets_session_pair_id (oracle : OracleResult)
    (toolImpl : List Char → List (List Char × List Char) → List Char)
    (pair_id nm : List Char) (args : List (List Char × List Char))
    (h : (run_agent oracle toolImpl pair_id).2 = some (nm, args)) :
    List.lookup pairIdKey args = some pair_id := by
  cases oracle with
  | fail => simp [run_agent] at h
  | ok calls content =>
    cases calls with
    | nil => simp [run_agent] at h
    | cons tc rest =>
      by_cases hm : tc.name ∈ TOOL_NAMES
      · simp [run_agent, hm] at h
        obtain ⟨h1, h2⟩ := h
        rw [← h2]
        exact fixToolArgs_lookup pair_id tc.args
      · simp [run_agent, hm] at h

/-- C8 witness: an oracle-proposed call carrying the wrong pair_id is
corrected to the session key. -/
theorem tool_gets_session_pair_id_witness :
    (run_agent (.ok [⟨"delete_reminder".data, [(pairIdKey, "WRONG".data)]⟩] [])
        (fun _ _ => []) "K1".data).2 =
      some ("delete_reminder".data, [(pairIdKey, "K1".data)]) ∧
    List.lookup pairIdKey [(pairIdKey, "K1".data)] = some "K1".data :=
  ⟨by decide,
   tool_gets_session_pair_id
     (.ok [ToolCall.mk "delete_reminder".data [(pairIdKey, "WRONG".data)]] [])
     (fun _ _ => []) "K1".data "delete_reminder".data [(pairIdKey, "K1".data)]
     (by decide)⟩

/-! ## delete_reminder (C1) -/

/-- C1 counterexample: with two stored titles both containing "medicine",
`delete_reminder` deletes the first match and returns a delete
confirmation — it does not return a disambiguation message and the
database does change. -/
theorem delete_ambiguous_deletes_first :
    delete_reminder
        [⟨1, "K".data, "Take medicine".data, "25 Dec 2024".data, "02:30 PM".data⟩,
         ⟨2, "K".data, "Buy medicine".data, "25 Dec 2024".data, "02:31 PM".data⟩]
        "K".data "medicine".data =
      (deletedMsg "Take medicine".data,
       [⟨2, "K".data, "Buy medicine".data, "25 Dec 2024".data, "02:31 PM".data⟩]) ∧
    (delete_reminder
        [⟨1, "K".data, "Take medicine".data, "25 Dec 2024".data, "02:30 PM".data⟩,
         ⟨2, "K".data, "Buy medicine".data, "25 Dec 2024".data, "02:31 PM".data⟩]
        "K".data "medicine".data).2 ≠
      [⟨1, "K".data, "Take medicine".data, "25 Dec 2024".data, "02:30 PM".data⟩,
       ⟨2, "K".data, "Buy medicine".data, "25 Dec 2024".data, "02:31 PM".data⟩] := by
  constructor <;> decide

theorem head?_filter {α : Type} (p : α → Bool) :
    ∀ l : List α, (l.filter p).head? = l.find? p := by
  intro l
  induction l with
  | nil => rfl
  | cons x t ih =>
    cases hx : p x <;> simp [List.filter_cons, List.find?_cons, hx, ih]

/-- C1 amended: zero matches yield the not-found message and an unchanged
database; one **or more** matches delete the first matching row (in fetch
order) and confirm with its title — there is no disambiguation branch. -/
theorem delete_reminder_first_match (db : List Reminder) (pid frag : List Char) :
    delete_reminder db pid frag =
      match db.find? fun r => decide (r.pair_id = pid) &&
          hasSub (lowerStr frag) (lowerStr r.title) with
      | none => (notFoundMsg frag, db)
      | some m => (deletedMsg m.title, db.eraseP fun r => decide (r.id = m.id)) := by
  have hcomm :
      (fun (a : Reminder) => hasSub (lowerStr frag) (lowerStr a.title) &&
        decide (a.pair_id = pid)) =
      (fun (a : Reminder) => decide (a.pair_id = pid) &&
        hasSub (lowerStr frag) (lowerStr a.title)) := by
    funext a; exact Bool.and_comm _ _
  simp only [delete_reminder, List.filter_filter, hcomm]
  rw [← head?_filter]
  cases hf : db.filter (fun r => decide (r.pair_id = pid) &&
      hasSub (lowerStr frag) (lowerStr r.title)) with
  | nil => rfl
  | cons m t => rfl

/-! ## Scheduler EXPIRED broadcast (C3) -/

/-- C3: whenever the pair row of a due reminder resolves, the EXPIRED
event is among the effects of `_process_due_reminder` regardless of the
push-transport outcome (the dispatch helper catches its own exceptions
and returns a boolean, so it cannot abort processing), and hence is
published for every due reminder of a tick. -/
theorem expired_event_always_broadcast (pairs : List PairRec) (users : List UserRec)
    (transportOk : Bool) (r : Reminder)
    (h : (findPair pairs r.pair_id).isSome) :
    SchedEvent.expired r.id ∈ process_due_reminder pairs users transportOk r ∧
    ∀ (now : DateTime) (db : List Reminder), r ∈ dueReminders now db →
      SchedEvent.expired r.id ∈
        check_reminders_events now db pairs users transportOk := by
  have h1 : SchedEvent.expired r.id ∈ process_due_reminder pairs users transportOk r := by
    unfold process_due_reminder
    cases hp : findPair pairs r.pair_id with
    | none => rw [hp] at h; simp at h
    | some p => simp
  refine ⟨h1, fun now db hdue => ?_⟩
  unfold check_reminders_events
  exact List.mem_flatMap.mpr ⟨r, hdue, h1⟩

/-- C3 witness: a concrete due reminder whose pair resolves to a patient
with a token, with the push transport failing. -/
theorem expired_event_always_broadcast_witness :
    (findPair [⟨"K".data, some "u1".data, none⟩] "K".data).isSome = true ∧
    SchedEvent.expired 7 ∈
      process_due_reminder [⟨"K".data, some "u1".data, none⟩]
        [⟨"u1".data, some "tok".data⟩] false
        ⟨7, "K".data, "T".data, "D".data, "TM".data⟩ :=
  ⟨by decide,
   (expired_event_always_broadcast _ _ false _ (by decide)).1⟩

/-! ## Broadcast fan-out (C2) -/

theorem bcastLoop_all_ok (sendOk : Nat → Bool) (exclude : Option Nat)
    (lst : List Nat) (h : ∀ c ∈ lst, sendOk c = true) :
    ∀ fuel i delivered, lst.length - i ≤ fuel →
      bcastLoop sendOk exclude fuel lst i delivered =
        (lst, delivered ++ (lst.drop i).filter fun c => decide (some c ≠ exclude)) := by
  intro fuel
  induction fuel with
  | zero =>
    intro i delivered hle
    have hge : lst.length ≤ i := by omega
    rw [List.drop_eq_nil_of_le hge]
    simp [bcastLoop]
  | succ fuel ih =>
    intro i delivered hle
    cases hg : lst[i]? with
    | none =>
      have hge : lst.length ≤ i := by
        by_contra hlt
        push_neg at hlt
        rw [List.getElem?_eq_getElem hlt] at hg
        simp at hg
      rw [List.drop_eq_nil_of_le hge]
      simp [bcastLoop, hg]
    | some c =>
      have hi : i < lst.length := by
        by_contra hge
        push_neg at hge
        rw [List.getElem?_eq_none hge] at hg
        simp at hg
      have hceq : lst[i] = c := by
        rw [List.getElem?_eq_getElem hi] at hg
        exact Option.some.inj hg
      have hc : c ∈ lst := by
        rw [← hceq]
        exact List.getElem_mem hi
      have hdrop : lst.drop i = c :: lst.drop (i + 1) := by
        rw [List.drop_eq_getElem_cons hi, hceq]
      simp only [bcastLoop, hg]
      by_cases hex : some c = exclude
      · rw [if_pos hex, ih (i + 1) delivered (by omega), hdrop]
        simp [hex]
      · rw [if_neg hex]
        have hs : sendOk c = true := h c hc
        rw [hs, if_pos rfl, ih (i + 1) (delivered ++ [c]) (by omega), hdrop]
        simp [hex]

/-- C2 counterexample: connections [1, 2, 3], the send to 1 fails and
evicts it from the live list, and connection 2 — registered, healthy and
not excluded — is skipped because the loop iterates the mutated list. -/
theorem broadcast_skips_connection_after_eviction :
    broadcast_json (fun c => decide (c ≠ 1)) none [1, 2, 3] = ([2, 3], [3]) ∧
    2 ∉ (broadcast_json (fun c => decide (c ≠ 1)) none [1, 2, 3]).2 ∧
    2 ∈ [1, 2, 3] ∧ decide ((2 : Nat) ≠ 1) = true := by
  refine ⟨by decide, by decide, by decide, by decide⟩

/-- C2 amended: when no send fails, `broadcast_json` delivers to every
connection registered under the key except the excluded one and leaves
the connection list unchanged; when a send fails, the failing connection
is evicted in place and — because iteration is over the live list, not a
snapshot — the connection after it can be skipped. -/
theorem broadcast_delivers_all_when_sends_succeed (sendOk : Nat → Bool)
    (exclude : Option Nat) (lst : List Nat) (h : ∀ c ∈ lst, sendOk c = true) :
    broadcast_json sendOk exclude lst =
      (lst, lst.filter fun c => decide (some c ≠ exclude)) := by
  unfold broadcast_json
  rw [bcastLoop_all_ok sendOk exclude lst h lst.length 0 [] (by omega)]
  simp

/-- C2 witness: all sends succeed, the sender 6 is excluded, 5 and 7 are
delivered to. -/
theorem broadcast_delivers_all_when_sends_succeed_witness :
    (∀ c ∈ [5, 6, 7], (fun _ : Nat => true) c = true) ∧
    broadcast_json (fun _ => true) (some 6) [5, 6, 7] = ([5, 6, 7], [5, 7]) :=
  ⟨by decide,
   broadcast_delivers_all_when_sends_succeed (fun _ => true) (some 6) [5, 6, 7]
     (by decide)⟩

/-! ## list_reminders rendering (C7) -/

theorem numberFrom_eq_enumFrom (l : List Reminder) :
    ∀ i, numberFrom i l = (l.enumFrom i).map fun p => renderItem p.1 p.2 := by
  induction l with
  | nil => intro i; rfl
  | cons r t ih => intro i; simp [numberFrom, List.enumFrom_cons, ih]

/-- C7 counterexample: two future reminders stored latest-first are
rendered in fetch order, not ascending by parsed instant — the output
differs from the sorted rendering the spec requires, and the first listed
entry has the later instant. -/
theorem list_reminders_not_sorted :
    list_reminders ⟨⟨2029, 1, 1, 0, 0⟩, 0⟩
        [Reminder.mk 1 "K".data "B".data "01 Jan 2031".data "09:00 AM".data,
         Reminder.mk 2 "K".data "A".data "01 Jan 2030".data "09:00 AM".data]
        "K".data ≠
      specListRemindersSorted ⟨⟨2029, 1, 1, 0, 0⟩, 0⟩
        [Reminder.mk 1 "K".data "B".data "01 Jan 2031".data "09:00 AM".data,
         Reminder.mk 2 "K".data "A".data "01 Jan 2030".data "09:00 AM".data]
        "K".data ∧
    remKey (Reminder.mk 2 "K".data "A".data "01 Jan 2030".data "09:00 AM".data) <
      remKey (Reminder.mk 1 "K".data "B".data "01 Jan 2031".data "09:00 AM".data) := by
  refine ⟨by decide, by decide⟩

/-- C7 amended: `list_reminders` fetches the key's rows, keeps exactly
the rows whose parsed instant is at or after now (unparseable rows are
skipped), renders them as a numbered list **in fetch order** (no
sorting), and returns the two friendly empty-case messages. -/
theorem list_reminders_unsorted_render (now : Instant) (db : List Reminder)
    (pid : List Char) :
    list_reminders now db pid = specListRemindersUnsorted now db pid := by
  simp only [list_reminders, specListRemindersUnsorted, upcomingOf,
    numberFrom_eq_enumFrom, List.isEmpty_iff]

/-! ## create_reminder and the flexible parser (C6) -/

/-- C6 counterexample: the time string "5 PM" matches none of the six
strptime formats (each requires a ":MM" minute part), so the spec's
example call returns the format-help failure message and persists
nothing. -/
theorem create_reminder_five_pm_fails :
    create_reminder 2026 1 [] "K".data "Take medicine".data "11th January".data
        "5 PM".data = (errFmtMsg, []) ∧
    parse_flexible_datetime 2026 "11th January".data "5 PM".data = none := by
  refine ⟨by decide, by decide⟩

/-- C6 amended: with time "5:00 PM" (a parseable time), the example
succeeds exactly as claimed: the ordinal suffix is stripped, the missing
year defaults to the current year, the canonical pair is
("11 Jan <year>", "05:00 PM"), a row with those strings is appended, and
the confirmation sentence echoes them. -/
theorem create_reminder_flexible_parse (cy newId : Nat) (db : List Reminder)
    (pid title : List Char) (h1 : 1 ≤ cy) (h2 : cy ≤ 9999) :
    parse_flexible_datetime cy "11th January".data "5:00 PM".data =
      some ("11 Jan ".data ++ natToChars cy, "05:00 PM".data) ∧
    create_reminder cy newId db pid title "11th January".data "5:00 PM".data =
      (createdMsg title ("11 Jan ".data ++ natToChars cy) "05:00 PM".data,
       db ++ [Reminder.mk newId pid title ("11 Jan ".data ++ natToChars cy)
         "05:00 PM".data]) := by
  have hdt : parseFlexibleDT cy "11th January".data "5:00 PM".data =
      some ⟨cy, 1, 11, 17, 0⟩ := by
    have hs : stripOrdinals "11th January".data = "11 January".data := by decide
    have hcat : "11 January".data ++ ' ' :: "5:00 PM".data =
        "11 January 5:00 PM".data := by decide
    have hf1 : strptimeFmt1 "11 January 5:00 PM".data = none := by decide
    have hf2 : strptimeFmt2 "11 January 5:00 PM".data = none := by decide
    have hf3 : strptimeFmt3 "11 January 5:00 PM".data = none := by decide
    have hf4 : strptimeFmt4 "11 January 5:00 PM".data = none := by decide
    have hf5 : strptimeFmt5 "11 January 5:00 PM".data = none := by decide
    have hf6 : strptimeFmt6 "11 January 5:00 PM".data =
        some ⟨1900, 1, 11, 17, 0⟩ := by decide
    have hv : validDT ⟨cy, 1, 11, 17, 0⟩ = true := by
      simp [validDT, daysInMonth, h1, h2]
    simp only [parseFlexibleDT, hs, hcat, hf1, hf2, hf3, hf4, hf5, hf6,
      Option.none_bind, Option.some_bind]
    simp [firstSome, replaceYear, hv]
  have hfd : strfDate ⟨cy, 1, 11, 17, 0⟩ = "11 Jan ".data ++ natToChars cy := by
    have e1 : pad2 11 = ['1', '1'] := by decide
    have e2 : monthName3 1 = ['J', 'a', 'n'] := by decide
    have e3 : "11 Jan ".data = ['1', '1', ' ', 'J', 'a', 'n', ' '] := by decide
    simp [strfDate, e1, e2, e3]
  have hft : strfTime ⟨cy, 1, 11, 17, 0⟩ = "05:00 PM".data := by
    have e1 : to12 17 = (5, true) := by decide
    have e2 : pad2 5 = ['0', '5'] := by decide
    have e3 : pad2 0 = ['0', '0'] := by decide
    have e4 : ampmChars true = ['P', 'M'] := by decide
    have e5 : "05:00 PM".data = ['0', '5', ':', '0', '0', ' ', 'P', 'M'] := by decide
    simp [strfTime, e1, e2, e3, e4, e5]
  have hp : parse_flexible_datetime cy "11th January".data "5:00 PM".data =
      some ("11 Jan ".data ++ natToChars cy, "05:00 PM".data) := by
    rw [parse_flexible_datetime, hdt]
    simp [hfd, hft]
  refine ⟨hp, ?_⟩
  rw [create_reminder, hp]

/-- C6 witness for the amended theorem at current year 2026. -/
theorem create_reminder_flexible_parse_witness :
    (1 ≤ 2026 ∧ 2026 ≤ 9999) ∧
    parse_flexible_datetime 2026 "11th January".data "5:00 PM".data =
      some ("11 Jan 2026".data, "05:00 PM".data) :=
  ⟨⟨by decide, by decide⟩,
   (create_reminder_flexible_parse 2026 1 [] "K".data "T".data
      (by decide) (by decide)).1⟩

/-! ## Digit and field lemmas for the strftime/strptime round trip -/

theorem isDigitCh_digitChar {b : Nat} (h : b < 10) : isDigitCh (digitChar b) = true := by
  interval_cases b <;> decide

theorem dv_digitChar {b : Nat} (h : b < 10) : dv (digitChar b) = b := by
  interval_cases b <;> decide

theorem wsChar_digitChar {b : Nat} (h : b < 10) : wsChar (digitChar b) = false := by
  interval_cases b <;> decide

theorem pad2_eq {n : Nat} (h : n ≤ 99) :
    pad2 n = [digitChar (n / 10), digitChar (n % 10)] := by
  by_cases h10 : n < 10
  · have hq : n / 10 = 0 := by omega
    have hm : n % 10 = n := by omega
    have hzero : digitChar 0 = '0' := by decide
    rw [pad2, if_pos h10, natToChars_lt_ten h10, hq, hm, hzero]
  · rw [pad2, if_neg h10, natToChars_ge_ten (by omega),
      natToChars_lt_ten (show n / 10 < 10 by omega)]
    rfl

theorem pDay_pad2 {d : Nat} (h1 : 1 ≤ d) (h2 : d ≤ 31) (r : List Char) :
    pDay (pad2 d ++ r) = some (d, r) := by
  interval_cases d <;> rfl

theorem pHour12_pad2 {h : Nat} (h1 : 1 ≤ h) (h2 : h ≤ 12) (r : List Char) :
    pHour12 (pad2 h ++ r) = some (h, r) := by
  interval_cases h <;> rfl

theorem pMin_pad2 {m : Nat} (h2 : m ≤ 59) (r : List Char) :
    pMin (pad2 m ++ r) = some (m, r) := by
  interval_cases m <;> rfl

theorem natToChars4 {y : Nat} (h1 : 1000 ≤ y) (h2 : y ≤ 9999) :
    natToChars y = [digitChar (y / 1000), digitChar (y / 100 % 10),
      digitChar (y / 10 % 10), digitChar (y % 10)] := by
  rw [natToChars_ge_ten (by omega),
    natToChars_ge_ten (show (10 : Nat) ≤ y / 10 by omega),
    natToChars_ge_ten (show (10 : Nat) ≤ y / 10 / 10 by omega),
    natToChars_lt_ten (show y / 10 / 10 / 10 < 10 by omega)]
  have e2 : y / 10 / 10 / 10 = y / 1000 := by
    rw [Nat.div_div_eq_div_mul, Nat.div_div_eq_div_mul]
  have e1 : y / 10 / 10 = y / 100 := by rw [Nat.div_div_eq_div_mul]
  rw [e2, e1]
  simp

theorem pYear4_digits {a b c d : Nat} (ha : a < 10) (hb : b < 10) (hc : c < 10)
    (hd : d < 10) (r : List Char) :
    pYear4 (digitChar a :: digitChar b :: digitChar c :: digitChar d :: r) =
      some (((a * 10 + b) * 10 + c) * 10 + d, r) := by
  simp [pYear4, isDigitCh_digitChar ha, isDigitCh_digitChar hb, isDigitCh_digitChar hc,
    isDigitCh_digitChar hd, dv_digitChar ha, dv_digitChar hb, dv_digitChar hc,
    dv_digitChar hd]

theorem pWs_one {x : Char} (hx : wsChar x = false) (r : List Char) :
    pWs (' ' :: x :: r) = some (x :: r) := by
  have hsp : wsChar ' ' = true := by decide
  simp [pWs, hsp, List.dropWhile_cons, hx]

theorem pMon_month {m : Nat} (h1 : 1 ≤ m) (h2 : m ≤ 12) (r : List Char) :
    pMon monAbbrevTable (monthName3 m ++ r) = some (m, r) := by
  interval_cases m <;> rfl

theorem pWs_month {m : Nat} (h1 : 1 ≤ m) (h2 : m ≤ 12) (r : List Char) :
    pWs (' ' :: (monthName3 m ++ r)) = some (monthName3 m ++ r) := by
  interval_cases m <;> rfl

theorem pAmPm_chars (pm : Bool) (r : List Char) :
    pAmPm (ampmChars pm ++ r) = some (pm, r) := by
  cases pm <;> rfl

theorem pWs_ampm (pm : Bool) (r : List Char) :
    pWs (' ' :: (ampmChars pm ++ r)) = some (ampmChars pm ++ r) := by
  cases pm <;> rfl

theorem pLit_colon (r : List Char) : pLit ':' (':' :: r) = some r := rfl

theorem hour12_roundtrip {h : Nat} (hh : h ≤ 23) :
    hour12To24 (to12 h).1 (to12 h).2 = h := by
  have hall : ∀ x < 24, hour12To24 (to12 x).1 (to12 x).2 = x := by decide
  exact hall h (by omega)

theorem to12_bounds {h : Nat} (hh : h ≤ 23) :
    1 ≤ (to12 h).1 ∧ (to12 h).1 ≤ 12 := by
  have hall : ∀ x < 24, 1 ≤ (to12 x).1 ∧ (to12 x).1 ≤ 12 := by decide
  exact hall h (by omega)

theorem daysInMonth_le_31 (y m : Nat) : daysInMonth y m ≤ 31 := by
  unfold daysInMonth
  split
  any_goals omega
  split <;> omega

theorem daysInMonth_pos {y m : Nat} (h1 : 1 ≤ m) (h2 : m ≤ 12) :
    1 ≤ daysInMonth y m := by
  by_cases hl : leapYear y = true
  · interval_cases m <;> simp [daysInMonth, hl]
  · interval_cases m <;> simp [daysInMonth, hl]

theorem pWs_pad2 {n : Nat} (hn : n ≤ 99) (r : List Char) :
    pWs (' ' :: (pad2 n ++ r)) = some (pad2 n ++ r) := by
  rw [pad2_eq hn]
  simp only [List.cons_append, List.nil_append]
  exact pWs_one (wsChar_digitChar (by omega)) _

theorem pWs_year {y : Nat} (h1 : 1000 ≤ y) (h2 : y ≤ 9999) (r : List Char) :
    pWs (' ' :: (natToChars y ++ r)) = some (natToChars y ++ r) := by
  rw [natToChars4 h1 h2]
  simp only [List.cons_append, List.nil_append]
  exact pWs_one (wsChar_digitChar (by omega)) _

theorem pYear4_natToChars {y : Nat} (h1 : 1000 ≤ y) (h2 : y ≤ 9999) (r : List Char) :
    pYear4 (natToChars y ++ r) = some (y, r) := by
  rw [natToChars4 h1 h2]
  simp only [List.cons_append, List.nil_append]
  rw [pYear4_digits (by omega) (by omega) (by omega) (by omega)]
  have hval : ((y / 1000 * 10 + y / 100 % 10) * 10 + y / 10 % 10) * 10 + y % 10 = y := by
    omega
  rw [hval]

theorem pWs_ampm_nil (pm : Bool) : pWs (' ' :: ampmChars pm) = some (ampmChars pm) := by
  cases pm <;> rfl

theorem pAmPm_nil (pm : Bool) : pAmPm (ampmChars pm) = some (pm, []) := by
  cases pm <;> rfl

/-- Round trip at the heart of C10 and of the scheduler's due test:
formatting a valid datetime (with a four-digit year) through
`strftime("%d %b %Y")`/`strftime("%I:%M %p")` and reparsing with the
canonical format `%d %b %Y %I:%M %p` recovers the same value. -/
theorem strptimeFmt1_roundtrip (d : DateTime) (hv : validDT d = true)
    (hy : 1000 ≤ d.year) :
    strptimeFmt1 (strfDate d ++ ' ' :: strfTime d) = some d := by
  obtain ⟨y, mo, dy, h, mi⟩ := d
  simp only [validDT, Bool.and_eq_true, decide_eq_true_eq] at hv
  obtain ⟨⟨⟨⟨⟨⟨⟨hy1, hy2⟩, hmo1⟩, hmo2⟩, hdy1⟩, hdy2⟩, hh⟩, hmi⟩ := hv
  simp only at hy
  have hdy99 : dy ≤ 31 := le_trans hdy2 (daysInMonth_le_31 y mo)
  have h12b := to12_bounds hh
  simp only [strfDate, strfTime, strptimeFmt1, stpFull, stpIMp,
    List.append_assoc, List.cons_append]
  rw [pDay_pad2 hdy1 hdy99]
  simp only [Option.some_bind]
  rw [pWs_month hmo1 hmo2]
  simp only [Option.some_bind]
  rw [pMon_month hmo1 hmo2]
  simp only [Option.some_bind]
  rw [pWs_year hy hy2]
  simp only [Option.some_bind]
  rw [pYear4_natToChars hy hy2]
  simp only [Option.some_bind]
  rw [pWs_pad2 (by omega : (to12 h).1 ≤ 99)]
  simp only [Option.some_bind]
  rw [pHour12_pad2 h12b.1 h12b.2]
  simp only [Option.some_bind]
  rw [pLit_colon]
  simp only [Option.some_bind]
  rw [pMin_pad2 hmi]
  simp only [Option.some_bind]
  rw [pWs_ampm_nil]
  simp only [Option.some_bind]
  rw [pAmPm_nil]
  simp only [Option.some_bind, if_pos rfl]
  rw [hour12_roundtrip hh]
  have hvd : validDT ⟨y, mo, dy, h, mi⟩ = true := by
    simp only [validDT, Bool.and_eq_true, decide_eq_true_eq]
    exact ⟨⟨⟨⟨⟨⟨⟨hy1, hy2⟩, hmo1⟩, hmo2⟩, hdy1⟩, hdy2⟩, hh⟩, hmi⟩
  simp [mkChecked, hvd]

/-! ## Parse results are valid datetimes (C10) -/

theorem mkChecked_valid {y m dd h mi : Nat} {d : DateTime}
    (hres : mkChecked y m dd h mi = some d) : validDT d = true := by
  simp only [mkChecked] at hres
  by_cases hc : validDT ⟨y, m, dd, h, mi⟩ = true
  · rw [if_pos hc] at hres
    obtain rfl := Option.some.inj hres
    exact hc
  · rw [if_neg hc] at hres
    simp at hres

theorem stpFull_valid {mon : List (List Char × Nat)}
    {timeP : List Char → Option ((Nat × Nat) × List Char)} {s : List Char}
    {d : DateTime} (h : stpFull mon timeP s = some d) : validDT d = true := by
  simp only [stpFull, Option.bind_eq_some] at h
  obtain ⟨pd, _, s1, _, pm, _, s2, _, py, _, s3, _, pt, _, hfin⟩ := h
  split at hfin
  · exact mkChecked_valid hfin
  · simp at hfin

theorem stpNoYear_valid {mon : List (List Char × Nat)} {s : List Char}
    {d : DateTime} (h : stpNoYear mon s = some d) : validDT d = true := by
  simp only [stpNoYear, Option.bind_eq_some] at h
  obtain ⟨pd, _, s1, _, pm, _, s2, _, pt, _, hfin⟩ := h
  split at hfin
  · exact mkChecked_valid hfin
  · simp at hfin

theorem replaceYear_valid {cy : Nat} {d d' : DateTime}
    (h : replaceYear cy d = some d') : validDT d' = true := by
  simp only [replaceYear] at h
  by_cases hc : validDT { d with year := cy } = true
  · rw [if_pos hc] at h
    obtain rfl := Option.some.inj h
    exact hc
  · rw [if_neg hc] at h
    simp at h

theorem firstSome_mem {α : Type} {l : List (Option α)} {x : α}
    (h : firstSome l = some x) : some x ∈ l := by
  induction l with
  | nil => simp [firstSome] at h
  | cons o t ih =>
    cases o with
    | some a =>
      simp only [firstSome] at h
      simp [h]
    | none =>
      simp only [firstSome] at h
      simp [ih h]

theorem parseFlexibleDT_valid {cy : Nat} {ds ts : List Char} {d : DateTime}
    (h : parseFlexibleDT cy ds ts = some d) : validDT d = true := by
  simp only [parseFlexibleDT] at h
  have hm := firstSome_mem h
  simp only [List.mem_cons, List.not_mem_nil, or_false] at hm
  rcases hm with h1 | h2 | h3 | h4 | h5 | h6
  · exact stpFull_valid h1.symm
  · exact stpFull_valid h2.symm
  · exact stpFull_valid h3.symm
  · exact stpFull_valid h4.symm
  · obtain ⟨a, _, hrep⟩ := Option.bind_eq_some.mp h5.symm
    exact replaceYear_valid hrep
  · obtain ⟨a, _, hrep⟩ := Option.bind_eq_some.mp h6.symm
    exact replaceYear_valid hrep

/-- C10 counterexample: the accepted input year "0005" (four digits, as
`%Y` demands) formats back to the three-character year "5", which the
canonical re-parse rejects — so the round trip fails for this accepted
input. -/
theorem canonical_roundtrip_fails_small_year :
    parseFlexibleDT 2026 "11 Jan 0005".data "05:00 PM".data =
      some ⟨5, 1, 11, 17, 0⟩ ∧
    parse_flexible_datetime 2026 "11 Jan 0005".data "05:00 PM".data =
      some ("11 Jan 5".data, "05:00 PM".data) ∧
    strptimeFmt1 ("11 Jan 5".data ++ ' ' :: "05:00 PM".data) = none := by
  refine ⟨by decide, by decide, by decide⟩

/-- C10 amended: for every date and time string `parse_flexible_datetime`
accepts whose parsed (or defaulted) year has four digits (is at least
1000), formatting the result with the canonical patterns and re-parsing
the concatenation with `%d %b %Y %I:%M %p` recovers the same
minute-truncated datetime, so such reminders are parseable by the
`list_reminders` filter and string-comparable by the scheduler. -/
theorem canonical_roundtrip (cy : Nat) (ds ts : List Char) (d : DateTime)
    (h : parseFlexibleDT cy ds ts = some d) (hy : 1000 ≤ d.year) :
    parse_flexible_datetime cy ds ts = some (strfDate d, strfTime d) ∧
    strptimeFmt1 (strfDate d ++ ' ' :: strfTime d) = some d := by
  refine ⟨by simp [parse_flexible_datetime, h], ?_⟩
  exact strptimeFmt1_roundtrip d (parseFlexibleDT_valid h) hy

/-- C10 witness: the amended round trip at the concrete accepted input
("11th January", "5:00 PM") with current year 2026. -/
theorem canonical_roundtrip_witness :
    parseFlexibleDT 2026 "11th January".data "5:00 PM".data =
      some ⟨2026, 1, 11, 17, 0⟩ ∧
    1000 ≤ (2026 : Nat) ∧
    strptimeFmt1 "11 Jan 2026 05:00 PM".data = some ⟨2026, 1, 11, 17, 0⟩ := by
  refine ⟨by decide, by decide, ?_⟩
  have hres := (canonical_roundtrip 2026 "11th January".data "5:00 PM".data
      ⟨2026, 1, 11, 17, 0⟩ (by decide) (by decide)).2
  have he : strfDate ⟨2026, 1, 11, 17, 0⟩ ++ ' ' :: strfTime ⟨2026, 1, 11, 17, 0⟩ =
      "11 Jan 2026 05:00 PM".data := by decide
  rw [← he]
  exact hres

/-! ## Scheduler tick uniqueness (C5) -/

theorem wfdt_mk {y mo dy hh mi : Nat} :
    WfDT ⟨y, mo, dy, hh, mi⟩ ↔
      (1 ≤ mo ∧ mo ≤ 12 ∧ 1 ≤ dy ∧ dy ≤ daysInMonth y mo ∧ hh ≤ 23 ∧ mi ≤ 59) :=
  Iff.rfl

theorem wf_nextMinute {d : DateTime} (h : WfDT d) : WfDT (nextMinute d) := by
  obtain ⟨y, mo, dy, hh, mi⟩ := d
  rw [wfdt_mk] at h
  obtain ⟨h1, h2, h3, h4, h5, h6⟩ := h
  unfold nextMinute
  dsimp only
  split_ifs with c1 c2 c3 c4
  · exact wfdt_mk.mpr ⟨h1, h2, h3, h4, h5, by omega⟩
  · exact wfdt_mk.mpr ⟨h1, h2, h3, h4, by omega, by omega⟩
  · exact wfdt_mk.mpr ⟨h1, h2, by omega, by omega, by omega, by omega⟩
  · exact wfdt_mk.mpr ⟨by omega, by omega, by omega,
      daysInMonth_pos (by omega) (by omega), by omega, by omega⟩
  · exact wfdt_mk.mpr ⟨by omega, by omega, by omega,
      daysInMonth_pos (by omega) (by omega), by omega, by omega⟩

theorem dtVal_lt_nextMinute {d : DateTime} (h : WfDT d) :
    dtVal d < dtVal (nextMinute d) := by
  obtain ⟨y, mo, dy, hh, mi⟩ := d
  rw [wfdt_mk] at h
  obtain ⟨h1, h2, h3, h4, h5, h6⟩ := h
  have h31 := daysInMonth_le_31 y mo
  unfold nextMinute
  dsimp only
  split_ifs with c1 c2 c3 c4 <;> simp only [dtVal] <;> omega

theorem wf_tick {t0 : DateTime} (h : WfDT t0) (k : Nat) : WfDT (tickDT t0 k) := by
  induction k with
  | zero => exact h
  | succ k ih => exact wf_nextMinute ih

theorem tick_strict_mono {t0 : DateTime} (h : WfDT t0) :
    ∀ k j : Nat, j < k → dtVal (tickDT t0 j) < dtVal (tickDT t0 k) := by
  intro k
  induction k with
  | zero => intro j hj; omega
  | succ k ih =>
    intro j hj
    have hstep : dtVal (tickDT t0 k) < dtVal (tickDT t0 (k + 1)) :=
      dtVal_lt_nextMinute (wf_tick h k)
    rcases Nat.lt_or_ge j k with hlt | hge
    · exact lt_trans (ih j hlt) hstep
    · have : j = k := by omega
      rw [this]
      exact hstep

theorem pad2_inj {a b : Nat} (ha : a ≤ 99) (hb : b ≤ 99) (h : pad2 a = pad2 b) :
    a = b := by
  rw [pad2_eq ha, pad2_eq hb] at h
  simp only [List.cons.injEq, and_true] at h
  have e1 : a / 10 = b / 10 := digitChar_inj (by omega) (by omega) h.1
  have e2 : a % 10 = b % 10 := digitChar_inj (by omega) (by omega) h.2
  omega

theorem monthName3_inj {m1 m2 : Nat} (a1 : 1 ≤ m1) (a2 : m1 ≤ 12) (b1 : 1 ≤ m2)
    (b2 : m2 ≤ 12) (h : monthName3 m1 = monthName3 m2) : m1 = m2 := by
  have hall : ∀ x < 13, ∀ y < 13, 1 ≤ x → 1 ≤ y → monthName3 x = monthName3 y →
      x = y := by decide
  exact hall m1 (by omega) m2 (by omega) a1 b1 h

theorem monthName3_len {m : Nat} (h1 : 1 ≤ m) (h2 : m ≤ 12) :
    (monthName3 m).length = 3 := by
  interval_cases m <;> rfl

theorem ampmChars_inj {p1 p2 : Bool} (h : ampmChars p1 = ampmChars p2) : p1 = p2 := by
  revert h
  cases p1 <;> cases p2 <;> decide

theorem to12_inj {h1 h2 : Nat} (a : h1 ≤ 23) (b : h2 ≤ 23) (e : to12 h1 = to12 h2) :
    h1 = h2 := by
  have hall : ∀ x < 24, ∀ y < 24, to12 x = to12 y → x = y := by decide
  exact hall h1 (by omega) h2 (by omega) e

theorem strfDate_inj {d1 d2 : DateTime} (w1 : WfDT d1) (w2 : WfDT d2)
    (h : strfDate d1 = strfDate d2) :
    d1.day = d2.day ∧ d1.month = d2.month ∧ d1.year = d2.year := by
  obtain ⟨a1, a2, a3, a4, _, _⟩ := w1
  obtain ⟨b1, b2, b3, b4, _, _⟩ := w2
  have ha31 : d1.day ≤ 31 := le_trans a4 (daysInMonth_le_31 _ _)
  have hb31 : d2.day ≤ 31 := le_trans b4 (daysInMonth_le_31 _ _)
  rw [strfDate, strfDate, pad2_eq (by omega), pad2_eq (by omega)] at h
  simp only [List.cons_append, List.nil_append, List.cons.injEq] at h
  obtain ⟨hc1, hc2, _, htail⟩ := h
  have hday : d1.day = d2.day := by
    have e1 := digitChar_inj (by omega) (by omega) hc1
    have e2 := digitChar_inj (by omega) (by omega) hc2
    omega
  obtain ⟨hmon, hrest⟩ := List.append_inj htail
    ((monthName3_len a1 a2).trans (monthName3_len b1 b2).symm)
  have hmo : d1.month = d2.month := monthName3_inj a1 a2 b1 b2 hmon
  simp only [List.cons.injEq, true_and] at hrest
  exact ⟨hday, hmo, natToChars_inj _ _ hrest⟩

theorem strfTime_inj {d1 d2 : DateTime} (w1 : WfDT d1) (w2 : WfDT d2)
    (h : strfTime d1 = strfTime d2) :
    d1.hour = d2.hour ∧ d1.minute = d2.minute := by
  obtain ⟨_, _, _, _, a5, a6⟩ := w1
  obtain ⟨_, _, _, _, b5, b6⟩ := w2
  have ha12 := to12_bounds a5
  have hb12 := to12_bounds b5
  rw [strfTime, strfTime,
    pad2_eq (show (to12 d1.hour).1 ≤ 99 by omega),
    pad2_eq (show d1.minute ≤ 99 by omega),
    pad2_eq (show (to12 d2.hour).1 ≤ 99 by omega),
    pad2_eq (show d2.minute ≤ 99 by omega)] at h
  simp only [List.cons_append, List.nil_append, List.cons.injEq] at h
  obtain ⟨hh1, hh2, _, hm1, hm2, _, hap⟩ := h
  have hmin : d1.minute = d2.minute := by
    have e1 := digitChar_inj (by omega) (by omega) hm1
    have e2 := digitChar_inj (by omega) (by omega) hm2
    omega
  have h12 : (to12 d1.hour).1 = (to12 d2.hour).1 := by
    have e1 := digitChar_inj (by omega) (by omega) hh1
    have e2 := digitChar_inj (by omega) (by omega) hh2
    omega
  have hpm : (to12 d1.hour).2 = (to12 d2.hour).2 := ampmChars_inj hap
  have hto : to12 d1.hour = to12 d2.hour := Prod.ext h12 hpm
  exact ⟨to12_inj a5 b5 hto, hmin⟩

theorem strf_pair_inj {d1 d2 : DateTime} (w1 : WfDT d1) (w2 : WfDT d2)
    (hd : strfDate d1 = strfDate d2) (ht : strfTime d1 = strfTime d2) : d1 = d2 := by
  obtain ⟨e1, e2, e3⟩ := strfDate_inj w1 w2 hd
  obtain ⟨e4, e5⟩ := strfTime_inj w1 w2 ht
  cases d1
  cases d2
  simp_all

/-- C5: along any run of scheduler ticks one minute apart from a
well-formed start, a stored reminder is selected as due at a tick exactly
when the tick's minute-formatted strings equal the stored date and time
strings; `check_reminders_job`'s selection at a tick is exactly the due
rows of the database; and no two distinct ticks both select the same
reminder — it fires at most once, at the matching tick, and never again. -/
theorem scheduler_fires_exactly_once (t0 : DateTime) (hwf : WfDT t0) (r : Reminder) :
    (∀ k, isDue (tickDT t0 k) r = true ↔
      (r.date = strfDate (tickDT t0 k) ∧ r.time = strfTime (tickDT t0 k))) ∧
    (∀ (db : List Reminder) (k : Nat),
      r ∈ dueReminders (tickDT t0 k) db ↔
        r ∈ db ∧ isDue (tickDT t0 k) r = true) ∧
    (∀ j k, isDue (tickDT t0 j) r = true → isDue (tickDT t0 k) r = true → j = k) := by
  have hdue : ∀ k, isDue (tickDT t0 k) r = true ↔
      (r.date = strfDate (tickDT t0 k) ∧ r.time = strfTime (tickDT t0 k)) := by
    intro k
    simp [isDue, Bool.and_eq_true, decide_eq_true_eq]
  refine ⟨hdue, ?_, ?_⟩
  · intro db k
    simp [dueReminders, List.mem_filter]
  · intro j k hj hk
    obtain ⟨hjd, hjt⟩ := (hdue j).mp hj
    obtain ⟨hkd, hkt⟩ := (hdue k).mp hk
    have heq : tickDT t0 j = tickDT t0 k :=
      strf_pair_inj (wf_tick hwf j) (wf_tick hwf k)
        (hjd.symm.trans hkd) (hjt.symm.trans hkt)
    rcases lt_trichotomy j k with hlt | heqk | hgt
    · have := tick_strict_mono hwf k j hlt
      rw [heq] at this
      omega
    · exact heqk
    · have := tick_strict_mono hwf j k hgt
      rw [heq] at this
      omega

/-- C5 witness: starting one minute before, the spec's example entry
("25 Dec 2024", "02:30 PM") is due exactly at tick 1. -/
theorem scheduler_fires_exactly_once_witness :
    WfDT ⟨2024, 12, 25, 14, 29⟩ ∧
    (isDue (tickDT ⟨2024, 12, 25, 14, 29⟩ 1)
        ⟨1, "K".data, "T".data, "25 Dec 2024".data, "02:30 PM".data⟩ = true ↔
      ("25 Dec 2024".data = strfDate (tickDT ⟨2024, 12, 25, 14, 29⟩ 1) ∧
       "02:30 PM".data = strfTime (tickDT ⟨2024, 12, 25, 14, 29⟩ 1))) :=
  ⟨wfdt_mk.mpr (by decide),
   (scheduler_fires_exactly_once ⟨2024, 12, 25, 14, 29⟩ (wfdt_mk.mpr (by decide)) _).1 1⟩

end CogniAnchor

example : "ab".data = ['a', 'b'] := by decide
example : CogniAnchor.natToChars 2024 = ['2', '0', '2', '4'] := by decide
example : CogniAnchor.parse_flexible_datetime 2026 "11th January".data "5 PM".data = none := by
  decide
example : CogniAnchor.parse_flexible_datetime 2026 "11th January".data "5:00 PM".data =
    some ("11 Jan 2026".data, "05:00 PM".data) := by decide
example : CogniAnchor.parseFlexibleDT 2026 "11 Jan 0005".data "05:00 PM".data =
    some ⟨5, 1, 11, 17, 0⟩ := by decide
example : CogniAnchor.strptimeFmt1 "11 Jan 5 05:00 PM".data = none := by decide
example : CogniAnchor.strptimeFmt1 "1 Jan 2026 5:7 PM".data =
    some ⟨2026, 1, 1, 17, 7⟩ := by decide
example : CogniAnchor.strptimeFmt1 "31 Feb 2026 05:00 PM".data = none := by decide
example : CogniAnchor.strptimeFmt5 "29 Feb 05:00 PM".data = none := by decide
example : CogniAnchor.strptimeFmt6 "11  JANUARY 05:00 pm".data =
    some ⟨1900, 1, 11, 17, 0⟩ := by decide
